import Mathlib

/-!
Verification of the godx sector storage engine (package storagemanager and
its test suite).  The in-memory model below embeds the manager operations
from the source file containing AddSector / ReadSector / Close; the
sub-operations whose bodies are not part of the excerpted core
(addVirtualSector, addStorageSector, the WAL, the sector lock table and the
maintenance loop) are modelled from the specification and marked as such in
their doc comments.
-/

namespace Godx

/-- SectorSize is the size of a sector, which is 4MiB (source constant
SectorSize = uint64(1 &lt;&lt; 22)). -/
def SectorSize : Nat := 2 ^ 22

/-- Modelled from the spec: the sector identifier is an HMAC-like hash of the
process-wide salt and the merkle root; it is a function of (salt, root) that
is injective except by cryptographic collision, modelled here by an injective
pairing function. -/
def calculateSectorID (salt root : Nat) : Nat := Nat.pair salt root

/-- storageSector records the slot index, the owning folder id and the
reference count of a stored sector. -/
structure storageSector where
  index : Nat
  storageFolder : Nat
  count : Nat
deriving DecidableEq

/-- zeroSector is the zero value a Go map lookup yields for a missing key. -/
def zeroSector : storageSector := ⟨0, 0, 0⟩

/-- osFile models the backing data file of a storage folder: a byte size and
the byte stored at every offset. -/
structure osFile where
  size : Nat
  byteAt : Nat → Nat

/-- readAt models os.File.ReadAt with a buffer of length n at a byte offset:
it fills the whole buffer or fails. -/
def readAt (f : osFile) (n off : Nat) : Option (List Nat) :=
  if off + n ≤ f.size then some ((List.range n).map fun i => f.byteAt (off + i))
  else none

/-- writeAt models os.File.WriteAt of a byte slice at a byte offset. -/
def writeAt (f : osFile) (off : Nat) (data : List Nat) : osFile :=
  { f with byteAt := fun i =>
      if off ≤ i ∧ i < off + data.length then data.getD (i - off) 0 else f.byteAt i }

/-- storageFolder is a fixed-capacity slot container backed by a data file,
with an occupancy bitmap, a used-slot count and an availability flag. -/
structure storageFolder where
  capacity : Nat
  usage : List Bool
  storedSectors : Nat
  atomicUnavailable : Bool
  sectorData : osFile

/-- storageManager state: the salt, the folder index, the sector index, the
atomic shutdown switch and the WAL handle (open or closed). -/
structure storageManager where
  sectorSalt : Nat
  folders : List (Nat × storageFolder)
  sectors : Nat → Option storageSector
  atomicSwitch : Bool
  walOpen : Bool

/-- getSectorID computes the sector id for a merkle root from the manager's
persisted salt (source: id := sm.getSectorID(root)). -/
def storageManager.getSectorID (sm : storageManager) (root : Nat) : Nat :=
  calculateSectorID sm.sectorSalt root

/-- Event instruments the externally observable side effects of an operation:
the stop signal to the maintenance thread, the wait on the in-flight wait
group, the WAL close, and raw file reads/writes. -/
inductive Event where
  | stopSignal
  | wgWait
  | walClose
  | fileRead (folderID index : Nat)
  | fileWrite (folderID index : Nat)
deriving DecidableEq

/-- OpResult packages the returned value or error of an operation together
with the post-state of the manager and the emitted events. -/
structure OpResult (α : Type) where
  res : Except String α
  state : storageManager
  events : List Event

/-- lookupF looks a key up in an association list (first occurrence). -/
def lookupF {α : Type} : List (Nat × α) → Nat → Option α
  | [], _ => none
  | (k, v) :: rest, fid => if k = fid then some v else lookupF rest fid

/-- updateFolder rewrites the value stored at the first occurrence of a key
in an association list. -/
def updateFolder {α : Type} : List (Nat × α) → Nat → (α → α) → List (Nat × α)
  | [], _, _ => []
  | (k, v) :: rest, fid, g =>
    if k = fid then (k, g v) :: rest else (k, v) :: updateFolder rest fid g

/-- firstFreeSlot is the first-fit scan of an occupancy bitmap. -/
def firstFreeSlot (usage : List Bool) : Option Nat :=
  usage.findIdx? (fun b => !b)

/-- selectFolder picks the first folder with a free slot together with the
first-fit slot index (spec: first folder with used &lt; capacity). -/
def selectFolder : List (Nat × storageFolder) → Option (Nat × storageFolder × Nat)
  | [] => none
  | (fid, sf) :: rest =>
    if sf.storedSectors < sf.capacity then
      match firstFreeSlot sf.usage with
      | some slot => some (fid, sf, slot)
      | none => selectFolder rest
    else selectFolder rest

/-- Modelled from the spec: addVirtualSector is the virtual-add path of
AddSector (body not in the excerpted core): a WAL-logged reference-count
increment of the existing sector record, no content write, no slot use. -/
def addVirtualSector (sm : storageManager) (id : Nat) (sector : storageSector) :
    OpResult Unit :=
  ⟨.ok (),
   { sm with sectors := fun i =>
       if i = id then some { sector with count := sector.count + 1 } else sm.sectors i },
   []⟩

/-- Modelled from the spec: addStorageSector is the physical-add path of
AddSector (body not in the excerpted core): choose the first folder with a
free slot, reserve the first-fit slot, write the content at the slot offset,
and record the sector with reference count 1. -/
def addStorageSector (sm : storageManager) (id : Nat) (data : List Nat) :
    OpResult Unit :=
  match selectFolder sm.folders with
  | none => ⟨.error "not enough storage remaining to accept sector", sm, []⟩
  | some (fid, sf, slot) =>
    let sf' : storageFolder :=
      { sf with
        usage := sf.usage.set slot true
        storedSectors := sf.storedSectors + 1
        sectorData := writeAt sf.sectorData (slot * SectorSize) data }
    ⟨.ok (),
     { sm with
       folders := updateFolder sm.folders fid (fun _ => sf')
       sectors := fun i => if i = id then some ⟨slot, fid, 1⟩ else sm.sectors i },
     [.fileWrite fid slot]⟩

/-- AddSector embeds the source dispatch: reject when the shutdown switch is
set; compute the id from the root; if the id is in the sector index take the
virtual-add path, otherwise the physical-add path. -/
def AddSector (sm : storageManager) (root : Nat) (sectorData : List Nat) :
    OpResult Unit :=
  if sm.atomicSwitch then ⟨.error "storage manager is shut down", sm, []⟩
  else
    match sm.sectors (sm.getSectorID root) with
    | some sector => addVirtualSector sm (sm.getSectorID root) sector
    | none => addStorageSector sm (sm.getSectorID root) sectorData

/-- readSector embeds the source helper: allocate a SectorSize buffer, read
it at byte offset sectorIndex * SectorSize, and surface any read fault as
the fixed read-failure error. -/
def readSector (file : osFile) (sectorIndex : Nat) : Except String (List Nat) :=
  match readAt file SectorSize (sectorIndex * SectorSize) with
  | some b => .ok b
  | none => .error "fail to read sector"

/-- ReadSector embeds the source: reject on shutdown; look the id up in the
sector index (zero value on miss, as a Go map does); look the owning folder
up; check the three failure conditions in source order; then read the slot. -/
def ReadSector (sm : storageManager) (root : Nat) : OpResult (List Nat) :=
  if sm.atomicSwitch then ⟨.error "storage manager is shut down", sm, []⟩
  else
    let id := sm.getSectorID root
    let ss := (sm.sectors id).getD zeroSector
    let sfOpt := lookupF sm.folders ss.storageFolder
    if (sm.sectors id).isNone then ⟨.error "Unable to find sector meta", sm, []⟩
    else
      match sfOpt with
      | none => ⟨.error "Unable to load storage folder", sm, []⟩
      | some sf =>
        if sf.atomicUnavailable then ⟨.error "Unable to open the folder", sm, []⟩
        else
          match readSector sf.sectorData ss.index with
          | .ok b => ⟨.ok b, sm, [.fileRead ss.storageFolder ss.index]⟩
          | .error e => ⟨.error e, sm, [.fileRead ss.storageFolder ss.index]⟩

/-- mkFolder builds a fresh folder of the given slot capacity with a zeroed,
pre-sized backing file (spec: file allocated to capacity * sector size). -/
def mkFolder (capacity : Nat) : storageFolder :=
  { capacity := capacity
    usage := List.replicate capacity false
    storedSectors := 0
    atomicUnavailable := false
    sectorData := ⟨capacity * SectorSize, fun _ => 0⟩ }

/-- AddStorageFolder embeds the source shutdown check; the prepare/process
bodies are modelled from the spec: validate the size, preallocate the backing
file and register the folder in the folder index. -/
def AddStorageFolder (sm : storageManager) (path : String) (size : Nat) :
    OpResult Unit :=
  if sm.atomicSwitch then ⟨.error "storage manager is shut down", sm, []⟩
  else
    if size = 0 ∨ path = "" then ⟨.error "invalid storage folder", sm, []⟩
    else
      ⟨.ok (),
       { sm with folders := sm.folders ++ [(sm.folders.length, mkFolder (size / SectorSize))] },
       []⟩

/-- Close embeds the source: fail when the switch is already set (with the
source's misspelled message), otherwise set the switch, signal the
maintenance thread, wait for the in-flight wait group to drain, and (as the
maintenance shutdown is modelled from the spec) close the WAL cleanly. -/
def Close (sm : storageManager) : OpResult Unit :=
  if sm.atomicSwitch then ⟨.error "storage managger already closed", sm, []⟩
  else
    ⟨.ok (),
     { sm with atomicSwitch := true, walOpen := false },
     [.stopSignal, .wgWait, .walClose]⟩

/-- totalStoredSectors sums the used-slot counts of all folders. -/
def totalStoredSectors (sm : storageManager) : Nat :=
  (sm.folders.map fun q => q.2.storedSectors).sum

/-!
Persistent crash model.  Modelled from the spec: the newstoragemanager
implementation exercised by the crash tests is not part of the excerpted
core, only its tests are; the WAL commit protocol (prepare and process
records, commit marker, replay of committed and rollback of uncommitted
transactions) is taken from the specification sections on the WAL and the
AddSector state machine.
-/

/-- faultPoint names the four logged fault-injection boundaries of
AddSector exercised by the disrupter tests. -/
inductive faultPoint where
  | physPrepare
  | physProcess
  | virtPrepare
  | virtProcess
deriving DecidableEq

/-- walOp is an operation record of a WAL transaction. -/
inductive walOp where
  | physAdd (id fid slot : Nat) (data : List Nat)
  | virtAdd (id : Nat)
  | addFolder (fid capacity : Nat)
deriving DecidableEq

/-- walTxn is a WAL transaction: its operation record plus whether its
commit marker is durably written. -/
structure walTxn where
  committed : Bool
  op : walOp
deriving DecidableEq

/-- durFolder is the durable state of a storage folder: capacity, occupancy
bitmap, used-slot count and the content stored in each slot (none when the
slot has no durable content). -/
structure durFolder where
  capacity : Nat
  usage : List Bool
  storedSectors : Nat
  slotContent : Nat → Option (List Nat)

/-- persistState is the durable state of the store: the sector index, the
folder index, the folder-to-sector registrations and the unreleased WAL
transactions. -/
structure persistState where
  sectors : Nat → Option storageSector
  folders : List (Nat × durFolder)
  folderSectors : List (Nat × Nat)
  walTxns : List walTxn

/-- initPersist is the durable state of a freshly created store. -/
def initPersist : persistState :=
  ⟨fun _ => none, [], [], []⟩

/-- selectFolderP picks the first durable folder with a free slot and the
first-fit slot index. -/
def selectFolderP : List (Nat × durFolder) → Option (Nat × Nat)
  | [] => none
  | (fid, sf) :: rest =>
    if sf.storedSectors < sf.capacity then
      match firstFreeSlot sf.usage with
      | some slot => some (fid, slot)
      | none => selectFolderP rest
    else selectFolderP rest

/-- applyPhysAdd applies the durable effects of a committed physical add:
reserve the slot, bump the used count, store the content, record the sector
with reference count 1 and register the folder-to-sector mapping. -/
def applyPhysAdd (p : persistState) (id fid slot : Nat) (data : List Nat) :
    persistState :=
  { p with
    sectors := fun i => if i = id then some ⟨slot, fid, 1⟩ else p.sectors i
    folders := updateFolder p.folders fid fun sf =>
      { sf with
        usage := sf.usage.set slot true
        storedSectors := sf.storedSectors + 1
        slotContent := fun j => if j = slot then some data else sf.slotContent j }
    folderSectors := (fid, id) :: p.folderSectors }

/-- applyVirtAdd applies the durable effect of a committed virtual add: the
reference count of the existing sector record is incremented. -/
def applyVirtAdd (p : persistState) (id : Nat) : persistState :=
  { p with
    sectors := fun i =>
      if i = id then (p.sectors i).map fun s => { s with count := s.count + 1 }
      else p.sectors i }

/-- applyAddFolder applies the durable effect of a committed folder
creation. -/
def applyAddFolder (p : persistState) (fid capacity : Nat) : persistState :=
  { p with
    folders := p.folders ++ [(fid, ⟨capacity, List.replicate capacity false, 0, fun _ => none⟩)] }

/-- applyTxn re-drives a committed WAL transaction during replay. -/
def applyTxn (p : persistState) (t : walTxn) : persistState :=
  match t.op with
  | .physAdd id fid slot data => applyPhysAdd p id fid slot data
  | .virtAdd id => applyVirtAdd p id
  | .addFolder fid capacity => applyAddFolder p fid capacity

/-- rollbackTxn discards an uncommitted WAL transaction during replay: any
partial on-disk content of a physical add is treated as not yet visible and
cleared; no index entry or slot reservation was durably applied. -/
def rollbackTxn (p : persistState) (t : walTxn) : persistState :=
  match t.op with
  | .physAdd _ fid slot _ =>
    { p with
      folders := updateFolder p.folders fid fun sf =>
        { sf with slotContent := fun j => if j = slot then none else sf.slotContent j } }
  | .virtAdd _ => p
  | .addFolder _ _ => p

/-- recover is the startup replay: every transaction with a durable commit
marker is re-driven, every transaction without one is rolled back, and all
transactions are released. -/
def recover (p : persistState) : persistState :=
  { p.walTxns.foldl (fun q t => if t.committed then applyTxn q t else rollbackTxn q t) p
    with walTxns := [] }

/-- appendTxn durably appends a new (uncommitted) WAL transaction. -/
def appendTxn (p : persistState) (t : walTxn) : persistState :=
  { p with walTxns := p.walTxns ++ [t] }

/-- commitLastTxn durably writes the commit marker of the transaction
appended last. -/
def commitLastTxn (p : persistState) : persistState :=
  { p with walTxns := p.walTxns.dropLast ++ (p.walTxns.getLast?.elim [] fun t => [⟨true, t.op⟩]) }

/-- releaseLastTxn releases the transaction appended last after its effects
have been fully applied. -/
def releaseLastTxn (p : persistState) : persistState :=
  { p with walTxns := p.walTxns.dropLast }

/-- addSectorCrash is the durable state AddSector leaves behind when the
process is stopped at the given fault point, paired with whether the add
reached its commit marker.  A fault point on the path not taken is never
reached, so the operation then runs to completion: append the transaction,
write the content (physical adds only), commit, apply, release.  At the
tested boundaries (prepare and process) the commit marker is not yet
durable; a stop at the physical process boundary may additionally leave
arbitrary partial bytes in the chosen slot. -/
def addSectorCrash (salt : Nat) (p : persistState) (root : Nat)
    (data : List Nat) (f : faultPoint) (junk : List Nat) : persistState × Bool :=
  let id := calculateSectorID salt root
  match p.sectors id with
  | some _ =>
    match f with
    | .virtPrepare => (appendTxn p ⟨false, .virtAdd id⟩, false)
    | .virtProcess => (appendTxn p ⟨false, .virtAdd id⟩, false)
    | _ => (releaseLastTxn (applyVirtAdd (commitLastTxn (appendTxn p ⟨false, .virtAdd id⟩)) id), true)
  | none =>
    match selectFolderP p.folders with
    | none => (p, false)
    | some (fid, slot) =>
      match f with
      | .physPrepare => (appendTxn p ⟨false, .physAdd id fid slot data⟩, false)
      | .physProcess =>
        ({ appendTxn p ⟨false, .physAdd id fid slot data⟩ with
           folders := updateFolder p.folders fid fun sf =>
             { sf with slotContent := fun j => if j = slot then some junk else sf.slotContent j } },
         false)
      | _ =>
        (releaseLastTxn
          (applyPhysAdd (commitLastTxn (appendTxn p ⟨false, .physAdd id fid slot data⟩))
            id fid slot data), true)

/-- cleanAddSector is an undisrupted AddSector at the durable level: append
the transaction, commit it, apply it and release it. -/
def cleanAddSector (salt : Nat) (p : persistState) (root : Nat)
    (data : List Nat) : persistState :=
  let id := calculateSectorID salt root
  match p.sectors id with
  | some _ =>
    releaseLastTxn (applyVirtAdd (commitLastTxn (appendTxn p ⟨false, .virtAdd id⟩)) id)
  | none =>
    match selectFolderP p.folders with
    | none => p
    | some (fid, slot) =>
      releaseLastTxn
        (applyPhysAdd (commitLastTxn (appendTxn p ⟨false, .physAdd id fid slot data⟩))
          id fid slot data)

/-- cleanAddFolder is an undisrupted AddStorageFolder at the durable level,
logged through the same transaction discipline. -/
def cleanAddFolder (p : persistState) (capacity : Nat) : persistState :=
  let fid := p.folders.length
  releaseLastTxn (applyAddFolder (commitLastTxn (appendTxn p ⟨false, .addFolder fid capacity⟩)) fid capacity)

/-- SMOpP is a durable-state-affecting manager operation of a clean run. -/
inductive SMOpP where
  | addFolder (capacity : Nat)
  | addSector (root : Nat) (data : List Nat)

/-- applyCleanOp runs one clean operation at the durable level. -/
def applyCleanOp (salt : Nat) (p : persistState) : SMOpP → persistState
  | .addFolder c => cleanAddFolder p c
  | .addSector root data => cleanAddSector salt p root data

/-- runCleanOps folds a list of clean operations over a durable state. -/
def runCleanOps (salt : Nat) (ops : List SMOpP) (p : persistState) : persistState :=
  ops.foldl (applyCleanOp salt) p

/-- closePersist is a clean Close at the durable level: the WAL is closed
without creating or releasing any transaction. -/
def closePersist (p : persistState) : persistState := p

/-- reopenWalTxnNum is the number of unreleased transactions reported when
the WAL file is reopened (source test helper checkWalTxnNum). -/
def reopenWalTxnNum (p : persistState) : Nat := p.walTxns.length

/-- usedSlotsP sums the used-slot counts of all durable folders. -/
def usedSlotsP (p : persistState) : Nat :=
  (p.folders.map fun q => q.2.storedSectors).sum

/-- slotContentAt reads the durable content of the slot a sector record
points at. -/
def slotContentAt (p : persistState) (s : storageSector) : Option (List Nat) :=
  match lookupF p.folders s.storageFolder with
  | some sf => sf.slotContent s.index
  | none => none

/-!
Sector lock table model.  Modelled from the spec: the lock table
implementation (lockSector / unlockSector) is not in the excerpted core;
the spec describes a keyed mutual-exclusion mechanism giving one exclusive
critical section per sector identifier.  The per-operation programs embed
the source call shape of AddSector and ReadSector: lock the id, consult the
indexes, run the body, unlock the id on return.
-/

/-- lockAction is one atomic step of a sector operation as seen by the lock
table. -/
inductive lockAction where
  | acquire (id : Nat)
  | indexAccess (id : Nat)
  | bodyStep
  | release (id : Nat)
deriving DecidableEq

/-- sectorOpProgram is the step sequence both AddSector and ReadSector
follow in the source: lock the sector id, consult the sector index, run the
add or read body, unlock the id on return. -/
def sectorOpProgram (id : Nat) : List lockAction :=
  [.acquire id, .indexAccess id, .bodyStep, .release id]

/-- lockSys is the state of the concurrent system: the remaining program of
every thread and the current holder of every sector lock. -/
structure lockSys where
  threads : List (List lockAction)
  held : Nat → Option Nat

/-- lockStep is the interleaving semantics: one thread executes its next
action; an acquire is only enabled while the lock is free. -/
inductive lockStep : lockSys → lockSys → Prop where
  | acquire (s : lockSys) (t id : Nat) (rest : List lockAction)
      (hth : s.threads.get? t = some (lockAction.acquire id :: rest))
      (hfree : s.held id = none) :
      lockStep s ⟨s.threads.set t rest, fun i => if i = id then some t else s.held i⟩
  | indexAccess (s : lockSys) (t id : Nat) (rest : List lockAction)
      (hth : s.threads.get? t = some (lockAction.indexAccess id :: rest)) :
      lockStep s ⟨s.threads.set t rest, s.held⟩
  | bodyStep (s : lockSys) (t : Nat) (rest : List lockAction)
      (hth : s.threads.get? t = some (lockAction.bodyStep :: rest)) :
      lockStep s ⟨s.threads.set t rest, s.held⟩
  | release (s : lockSys) (t id : Nat) (rest : List lockAction)
      (hth : s.threads.get? t = some (lockAction.release id :: rest)) :
      lockStep s ⟨s.threads.set t rest, fun i => if i = id then none else s.held i⟩

/-- reach is reachability from a start state through the interleaving
semantics. -/
inductive reach (s0 : lockSys) : lockSys → Prop where
  | refl : reach s0 s0
  | tail {s s' : lockSys} : reach s0 s → lockStep s s' → reach s0 s'

/-- sysInit starts one thread per requested sector identifier, with all
locks free. -/
def sysInit (sids : List Nat) : lockSys :=
  ⟨sids.map sectorOpProgram, fun _ => none⟩

/-- inCrit holds when a remaining program is inside the critical section on
the given id: past the acquire and not yet past the release. -/
def inCrit (p : List lockAction) (id : Nat) : Prop :=
  p = [.indexAccess id, .bodyStep, .release id] ∨
  p = [.bodyStep, .release id] ∨
  p = [.release id]

/-- progOK holds when a remaining program is a suffix of some sector
operation program. -/
def progOK (p : List lockAction) : Prop :=
  ∃ id, p = sectorOpProgram id ∨ inCrit p id ∨ p = []

/-- sysInv is the inductive invariant of the lock system: every thread runs
a suffix of a sector operation program, every thread inside a critical
section holds the corresponding lock, and every held lock belongs to a
thread inside the corresponding critical section. -/
def sysInv (s : lockSys) : Prop :=
  (∀ t p, s.threads.get? t = some p → progOK p) ∧
  (∀ t p id, s.threads.get? t = some p → inCrit p id → s.held id = some t) ∧
  (∀ id t, s.held id = some t → ∃ p, s.threads.get? t = some p ∧ inCrit p id)

/-! Concrete inputs used by the witness theorems. -/

/-- wFile is a zeroed two-sector backing file. -/
def wFile : osFile := ⟨2 * SectorSize, fun _ => 0⟩

/-- wFolder is an empty two-slot folder over wFile. -/
def wFolder : storageFolder := ⟨2, [false, false], 0, false, wFile⟩

/-- wSM0 is a running manager with one empty folder and no sectors. -/
def wSM0 : storageManager := ⟨0, [(0, wFolder)], (fun _ => none), false, true⟩

/-- wSM1 is wSM0 after one physical add of content [1, 2] under root 0. -/
def wSM1 : storageManager := (AddSector wSM0 0 [1, 2]).state

/-- wSM2 is wSM1 after a second, virtual add of the same content. -/
def wSM2 : storageManager := (AddSector wSM1 0 [1, 2]).state

/-- wSMclosed is wSM0 with the shutdown switch already set. -/
def wSMclosed : storageManager := { wSM0 with atomicSwitch := true }

/-- wFileExact is a backing file of exactly one sector. -/
def wFileExact : osFile := ⟨SectorSize, fun _ => 0⟩

/-- wDurFolder is an empty two-slot durable folder. -/
def wDurFolder : durFolder := ⟨2, [false, false], 0, fun _ => none⟩

/-- wP0 is a quiescent durable state with one empty folder and no sectors. -/
def wP0 : persistState := ⟨(fun _ => none), [(0, wDurFolder)], [], []⟩

/-! Theorems. -/

/-- Claim C5: while the atomic shutdown flag is set, AddStorageFolder,
AddSector and ReadSector return the shutdown error immediately with no state
mutation and no side effect, and a further Close returns the
already-shut-down error without signalling the maintenance thread or waiting
on the wait group again. -/
theorem shutdown_rejection (sm : storageManager) (path : String)
    (size root : Nat) (data : List Nat) (h : sm.atomicSwitch = true) :
    AddStorageFolder sm path size = ⟨.error "storage manager is shut down", sm, []⟩ ∧
    AddSector sm root data = ⟨.error "storage manager is shut down", sm, []⟩ ∧
    ReadSector sm root = ⟨.error "storage manager is shut down", sm, []⟩ ∧
    Close sm = ⟨.error "storage managger already closed", sm, []⟩ := by
  refine ⟨?_, ?_, ?_, ?_⟩ <;> simp [AddStorageFolder, AddSector, ReadSector, Close, h]

/-- Witness for C5 at a concrete closed manager. -/
theorem shutdown_rejection_witness :
    AddStorageFolder wSMclosed "p" 1 = ⟨.error "storage manager is shut down", wSMclosed, []⟩ ∧
    AddSector wSMclosed 0 [] = ⟨.error "storage manager is shut down", wSMclosed, []⟩ ∧
    ReadSector wSMclosed 0 = ⟨.error "storage manager is shut down", wSMclosed, []⟩ ∧
    Close wSMclosed = ⟨.error "storage managger already closed", wSMclosed, []⟩ :=
  shutdown_rejection wSMclosed "p" 1 0 [] rfl

/-- Claim C6: a first successful Close sets the atomic shutdown flag (after
which new AddSector calls are rejected without mutation), signals the
maintenance thread, waits on the in-flight wait group, and closes the WAL
before returning. -/
theorem close_postcondition (sm : storageManager) (h : sm.atomicSwitch = false) :
    (Close sm).res = .ok () ∧
    (Close sm).state.atomicSwitch = true ∧
    (Close sm).state.walOpen = false ∧
    (Close sm).events = [.stopSignal, .wgWait, .walClose] ∧
    (∀ root data,
      (AddSector (Close sm).state root data).res = .error "storage manager is shut down" ∧
      (AddSector (Close sm).state root data).state = (Close sm).state) := by
  refine ⟨?_, ?_, ?_, ?_, ?_⟩ <;> simp [Close, h, AddSector]

/-- Witness for C6 at a concrete running manager. -/
theorem close_postcondition_witness :
    (Close wSM0).res = .ok () ∧
    (Close wSM0).state.atomicSwitch = true ∧
    (Close wSM0).state.walOpen = false ∧
    (Close wSM0).events = [.stopSignal, .wgWait, .walClose] ∧
    (∀ root data,
      (AddSector (Close wSM0).state root data).res = .error "storage manager is shut down" ∧
      (AddSector (Close wSM0).state root data).state = (Close wSM0).state) :=
  close_postcondition wSM0 rfl

/-- Claim C9: when the sector id is absent from the sector index, ReadSector
returns the sector-meta-not-found error whatever the folder table holds, and
no file read is attempted. -/
theorem readSector_missing_sector_precedence (sm : storageManager) (root : Nat)
    (fl : List (Nat × storageFolder)) (h : sm.atomicSwitch = false)
    (hnone : sm.sectors (sm.getSectorID root) = none) :
    (ReadSector { sm with folders := fl } root).res = .error "Unable to find sector meta" ∧
    (ReadSector { sm with folders := fl } root).events = [] := by
  constructor <;> simp [ReadSector, storageManager.getSectorID, h] <;>
    simp [storageManager.getSectorID] at hnone <;> simp [hnone]

/-- Witness for C9 at a concrete manager with an empty sector index and a
nonempty folder table. -/
theorem readSector_missing_sector_precedence_witness :
    (ReadSector { wSM0 with folders := [(0, wFolder)] } 0).res = .error "Unable to find sector meta" ∧
    (ReadSector { wSM0 with folders := [(0, wFolder)] } 0).events = [] :=
  readSector_missing_sector_precedence wSM0 0 [(0, wFolder)] rfl rfl

/-- Claim C10: a successful readSector returns a buffer of length exactly
SectorSize, allocated at SectorSize and filled from byte offset
sectorIndex * SectorSize. -/
theorem readSector_fixed_size (file : osFile) (sectorIndex : Nat)
    (h : sectorIndex * SectorSize + SectorSize ≤ file.size) :
    ∃ b, readSector file sectorIndex = .ok b ∧ b.length = SectorSize := by
  refine ⟨(List.range SectorSize).map fun i => file.byteAt (sectorIndex * SectorSize + i), ?_, by simp⟩
  unfold readSector readAt
  rw [if_pos h]

/-- Witness for C10 at a concrete one-sector file. -/
theorem readSector_fixed_size_witness :
    ∃ b, readSector wFileExact 0 = .ok b ∧ b.length = SectorSize :=
  readSector_fixed_size wFileExact 0 (by decide)

/-- Claim C3: an AddSector call not rejected by the shutdown flag computes
the sector id from the root and takes exactly one of the two paths: the
virtual-add path when the id is present in the sector index (reference-count
increment, folders untouched, no content write), the physical-add path when
it is absent (slot reservation and content write on success). -/
theorem addSector_dispatch (sm : storageManager) (root : Nat) (data : List Nat)
    (h : sm.atomicSwitch = false) :
    (∀ s, sm.sectors (sm.getSectorID root) = some s →
      AddSector sm root data = addVirtualSector sm (sm.getSectorID root) s ∧
      (AddSector sm root data).state.sectors (sm.getSectorID root) =
        some { s with count := s.count + 1 } ∧
      (AddSector sm root data).state.folders = sm.folders ∧
      (AddSector sm root data).events = []) ∧
    (sm.sectors (sm.getSectorID root) = none →
      AddSector sm root data = addStorageSector sm (sm.getSectorID root) data ∧
      ((AddSector sm root data).res = .ok () →
        ∃ fid slot, (AddSector sm root data).events = [.fileWrite fid slot] ∧
          (AddSector sm root data).state.sectors (sm.getSectorID root) =
            some ⟨slot, fid, 1⟩)) := by
  constructor
  · intro s hs
    refine ⟨?_, ?_, ?_, ?_⟩ <;> simp [AddSector, h, hs, addVirtualSector]
  · intro hn
    refine ⟨by simp [AddSector, h, hn], ?_⟩
    intro hok
    rcases hsel : selectFolder sm.folders with _ | ⟨fid, sf, slot⟩
    · exfalso
      simp [AddSector, h, hn, addStorageSector, hsel] at hok
    · refine ⟨fid, slot, ?_, ?_⟩ <;>
        simp [AddSector, h, hn, addStorageSector, hsel]

/-- Witness for C3 at a concrete empty manager (physical path) applied to
root 0. -/
theorem addSector_dispatch_witness :
    (∀ s, wSM0.sectors (wSM0.getSectorID 0) = some s →
      AddSector wSM0 0 [1, 2] = addVirtualSector wSM0 (wSM0.getSectorID 0) s ∧
      (AddSector wSM0 0 [1, 2]).state.sectors (wSM0.getSectorID 0) =
        some { s with count := s.count + 1 } ∧
      (AddSector wSM0 0 [1, 2]).state.folders = wSM0.folders ∧
      (AddSector wSM0 0 [1, 2]).events = []) ∧
    (wSM0.sectors (wSM0.getSectorID 0) = none →
      AddSector wSM0 0 [1, 2] = addStorageSector wSM0 (wSM0.getSectorID 0) [1, 2] ∧
      ((AddSector wSM0 0 [1, 2]).res = .ok () →
        ∃ fid slot, (AddSector wSM0 0 [1, 2]).events = [.fileWrite fid slot] ∧
          (AddSector wSM0 0 [1, 2]).state.sectors (wSM0.getSectorID 0) =
            some ⟨slot, fid, 1⟩)) :=
  addSector_dispatch wSM0 0 [1, 2] rfl

/-- Claim C2: submitting the same content twice, where the first add is
physical and succeeds, makes the second add a virtual one: the reference
count becomes 2 and the total used-slot count over all folders after the
second add equals the count after the first add. -/
theorem addSector_dedup (sm : storageManager) (root : Nat) (data : List Nat)
    (sm1 sm2 : storageManager) (h : sm.atomicSwitch = false)
    (habs : sm.sectors (sm.getSectorID root) = none)
    (h1 : (AddSector sm root data).res = .ok ())
    (hs1 : sm1 = (AddSector sm root data).state)
    (hs2 : sm2 = (AddSector sm1 root data).state) :
    (AddSector sm1 root data).res = .ok () ∧
    (sm2.sectors (sm.getSectorID root)).map storageSector.count = some 2 ∧
    totalStoredSectors sm2 = totalStoredSectors sm1 := by
  rcases hsel : selectFolder sm.folders with _ | ⟨fid, sf, slot⟩
  · exfalso
    simp [AddSector, h, habs, addStorageSector, hsel] at h1
  · have hswitch1 : sm1.atomicSwitch = false := by
      rw [hs1]; simp [AddSector, h, habs, addStorageSector, hsel]
    have hsalt1 : sm1.sectorSalt = sm.sectorSalt := by
      rw [hs1]; simp [AddSector, h, habs, addStorageSector, hsel]
    have hid1 : sm1.getSectorID root = sm.getSectorID root := by
      simp [storageManager.getSectorID, hsalt1]
    have hsec1 : sm1.sectors (sm.getSectorID root) = some ⟨slot, fid, 1⟩ := by
      rw [hs1]; simp [AddSector, h, habs, addStorageSector, hsel]
    have h2 : AddSector sm1 root data =
        addVirtualSector sm1 (sm.getSectorID root) ⟨slot, fid, 1⟩ := by
      simp [AddSector, hswitch1, hid1, hsec1]
    refine ⟨?_, ?_, ?_⟩
    · rw [h2]; rfl
    · rw [hs2, h2]; simp [addVirtualSector]
    · rw [hs2, h2]; simp [addVirtualSector, totalStoredSectors]

/-- Witness for C2: two adds of the same content on a fresh one-folder
manager leave reference count 2 and the used-slot total of the first add. -/
theorem addSector_dedup_witness :
    (AddSector wSM1 0 [1, 2]).res = .ok () ∧
    (wSM2.sectors (wSM0.getSectorID 0)).map storageSector.count = some 2 ∧
    totalStoredSectors wSM2 = totalStoredSectors wSM1 :=
  addSector_dedup wSM0 0 [1, 2] wSM1 wSM2 rfl rfl rfl rfl rfl

/-- Claim C4: a ReadSector call not rejected by the shutdown flag fails with
the sector-not-found error when the id is absent, with the folder errors
when the owning folder is missing or flagged unavailable, returns the bytes
of the backing file at byte offset index * SectorSize on success, and turns
a read fault into the read-failure error. -/
theorem readSector_behaviour (sm : storageManager) (root : Nat)
    (h : sm.atomicSwitch = false) :
    (sm.sectors (sm.getSectorID root) = none →
      (ReadSector sm root).res = .error "Unable to find sector meta") ∧
    (∀ ss, sm.sectors (sm.getSectorID root) = some ss →
      (lookupF sm.folders ss.storageFolder = none →
        (ReadSector sm root).res = .error "Unable to load storage folder") ∧
      (∀ sf, lookupF sm.folders ss.storageFolder = some sf →
        (sf.atomicUnavailable = true →
          (ReadSector sm root).res = .error "Unable to open the folder") ∧
        (sf.atomicUnavailable = false →
          (ss.index * SectorSize + SectorSize ≤ sf.sectorData.size →
            (ReadSector sm root).res =
              .ok ((List.range SectorSize).map fun i =>
                sf.sectorData.byteAt (ss.index * SectorSize + i))) ∧
          (¬ ss.index * SectorSize + SectorSize ≤ sf.sectorData.size →
            (ReadSector sm root).res = .error "fail to read sector")))) := by
  constructor
  · intro hn
    simp [ReadSector, h, hn]
  · intro ss hs
    refine ⟨?_, ?_⟩
    · intro hf
      simp [ReadSector, h, hs, hf]
    · intro sf hf
      refine ⟨?_, ?_⟩
      · intro hu
        simp [ReadSector, h, hs, hf, hu]
      · intro hu
        refine ⟨?_, ?_⟩ <;> intro hsz <;>
          simp [ReadSector, h, hs, hf, hu, readSector, readAt, hsz]

/-- Updating the folder stored at a key rewrites what a lookup of that key
returns. -/
theorem lookupF_updateFolder {α : Type} (l : List (Nat × α)) (fid : Nat)
    (g : α → α) :
    lookupF (updateFolder l fid g) fid = (lookupF l fid).map g := by
  induction l with
  | nil => rfl
  | cons kv rest ih =>
    obtain ⟨k, v⟩ := kv
    by_cases hk : k = fid
    · subst hk; simp [updateFolder, lookupF]
    · simp [updateFolder, lookupF, hk, ih]

/-- A folder update that preserves a numeric field preserves the sum of that
field over the folder list. -/
theorem sum_map_updateFolder {α : Type} (l : List (Nat × α)) (fid : Nat)
    (g : α → α) (f : α → Nat) (hg : ∀ v, f (g v) = f v) :
    ((updateFolder l fid g).map fun q => f q.2).sum = (l.map fun q => f q.2).sum := by
  induction l with
  | nil => rfl
  | cons kv rest ih =>
    obtain ⟨k, v⟩ := kv
    by_cases hk : k = fid
    · subst hk; simp [updateFolder, hg]
    · simp [updateFolder, hk, ih]

/-- A folder update that preserves the used-slot count preserves the
used-slot total. -/
theorem sum_storedSectors_updateFolder (l : List (Nat × durFolder)) (fid : Nat)
    (g : durFolder → durFolder)
    (hg : ∀ v, (g v).storedSectors = v.storedSectors) :
    ((updateFolder l fid g).map fun q => q.2.storedSectors).sum
      = (l.map fun q => q.2.storedSectors).sum :=
  sum_map_updateFolder l fid g (fun v => v.storedSectors) hg

/-- The folder id chosen by the first-fit folder scan is present in the
folder list. -/
theorem selectFolderP_lookupF (l : List (Nat × durFolder)) (fid slot : Nat)
    (h : selectFolderP l = some (fid, slot)) : ∃ sf, lookupF l fid = some sf := by
  induction l with
  | nil => simp [selectFolderP] at h
  | cons kv rest ih =>
    obtain ⟨k, v⟩ := kv
    simp only [selectFolderP] at h
    by_cases hc : v.storedSectors < v.capacity
    · rw [if_pos hc] at h
      rcases hff : firstFreeSlot v.usage with _ | s
      · rw [hff] at h
        obtain ⟨sf, hsf⟩ := ih h
        by_cases hk : k = fid
        · exact ⟨v, by simp [lookupF, hk]⟩
        · exact ⟨sf, by simp [lookupF, hk, hsf]⟩
      · rw [hff] at h
        simp only [Option.some.injEq, Prod.mk.injEq] at h
        exact ⟨v, by simp [lookupF, h.1]⟩
    · rw [if_neg hc] at h
      obtain ⟨sf, hsf⟩ := ih h
      by_cases hk : k = fid
      · exact ⟨v, by simp [lookupF, hk]⟩
      · exact ⟨sf, by simp [lookupF, hk, hsf]⟩

/-- Claim C1: for every fault injected at a logged boundary of AddSector
(physical prepare, physical process, virtual prepare, virtual process),
stopping the process there and running startup replay over the same persist
directory leaves the store in exactly one of two states: the sector fully
absent (lookup fails, the used-slot total unchanged, no folder-to-sector
registration) or the sector fully present with correct data and a reference
count reflecting only the committed adds. -/
theorem addSector_crash_atomicity (salt : Nat) (p : persistState) (root : Nat)
    (data junk : List Nat) (f : faultPoint)
    (hq : p.walTxns = [])
    (hprev : ∀ s, p.sectors (calculateSectorID salt root) = some s →
      slotContentAt p s = some data)
    (hreg : p.sectors (calculateSectorID salt root) = none →
      ∀ fid, (fid, calculateSectorID salt root) ∉ p.folderSectors) :
    ((recover (addSectorCrash salt p root data f junk).1).sectors
        (calculateSectorID salt root) = none ∧
      usedSlotsP (recover (addSectorCrash salt p root data f junk).1) = usedSlotsP p ∧
      ∀ fid, (fid, calculateSectorID salt root) ∉
        (recover (addSectorCrash salt p root data f junk).1).folderSectors) ∨
    (∃ s, (recover (addSectorCrash salt p root data f junk).1).sectors
        (calculateSectorID salt root) = some s ∧
      slotContentAt (recover (addSectorCrash salt p root data f junk).1) s = some data ∧
      s.count = (match p.sectors (calculateSectorID salt root) with
                 | some s0 => s0.count
                 | none => 0) +
        (if (addSectorCrash salt p root data f junk).2 then 1 else 0)) := by
  rcases hps : p.sectors (calculateSectorID salt root) with _ | s0
  · rcases hsel : selectFolderP p.folders with _ | ⟨fid, slot⟩
    · left
      refine ⟨?_, ?_, ?_⟩ <;>
        simp [addSectorCrash, hps, hsel, recover, hq, usedSlotsP]
      exact fun fid => hreg hps fid
    · cases f with
      | physPrepare =>
        left
        refine ⟨?_, ?_, ?_⟩
        · simp [addSectorCrash, hps, hsel, recover, appendTxn, hq, rollbackTxn, hps]
        · simp only [addSectorCrash, hps, hsel, recover, appendTxn, hq, rollbackTxn,
            usedSlotsP, List.nil_append, List.foldl_cons, List.foldl_nil,
            Bool.false_eq_true, if_false]
          exact sum_map_updateFolder _ _ _ _ (fun v => rfl)
        · simp [addSectorCrash, hps, hsel, recover, appendTxn, hq, rollbackTxn]
          exact fun fid => hreg hps fid
      | physProcess =>
        left
        refine ⟨?_, ?_, ?_⟩
        · simp [addSectorCrash, hps, hsel, recover, appendTxn, hq, rollbackTxn, hps]
        · simp only [addSectorCrash, hps, hsel, recover, appendTxn, hq, rollbackTxn,
            usedSlotsP, List.nil_append, List.foldl_cons, List.foldl_nil,
            Bool.false_eq_true, if_false]
          exact (sum_storedSectors_updateFolder _ fid
              (fun sf => { sf with
                slotContent := fun j => if j = slot then none else sf.slotContent j })
              (fun v => rfl)).trans
            (sum_storedSectors_updateFolder p.folders fid
              (fun sf => { sf with
                slotContent := fun j => if j = slot then some junk else sf.slotContent j })
              (fun v => rfl))
        · simp [addSectorCrash, hps, hsel, recover, appendTxn, hq, rollbackTxn]
          exact fun fid => hreg hps fid
      | virtPrepare =>
        right
        obtain ⟨sf0, hsf0⟩ := selectFolderP_lookupF p.folders fid slot hsel
        refine ⟨⟨slot, fid, 1⟩, ?_, ?_, ?_⟩
        · simp [addSectorCrash, hps, hsel, recover, releaseLastTxn, applyPhysAdd,
            commitLastTxn, appendTxn, hq]
        · simp [addSectorCrash, hps, hsel, recover, releaseLastTxn, applyPhysAdd,
            commitLastTxn, appendTxn, hq, slotContentAt, lookupF_updateFolder, hsf0]
        · simp [addSectorCrash, hps, hsel]
      | virtProcess =>
        right
        obtain ⟨sf0, hsf0⟩ := selectFolderP_lookupF p.folders fid slot hsel
        refine ⟨⟨slot, fid, 1⟩, ?_, ?_, ?_⟩
        · simp [addSectorCrash, hps, hsel, recover, releaseLastTxn, applyPhysAdd,
            commitLastTxn, appendTxn, hq]
        · simp [addSectorCrash, hps, hsel, recover, releaseLastTxn, applyPhysAdd,
            commitLastTxn, appendTxn, hq, slotContentAt, lookupF_updateFolder, hsf0]
        · simp [addSectorCrash, hps, hsel]
  · cases f with
    | virtPrepare =>
      right
      refine ⟨s0, ?_, ?_, ?_⟩
      · simp [addSectorCrash, hps, recover, appendTxn, hq, rollbackTxn]
      · have hc := hprev s0 hps
        simp only [slotContentAt] at hc ⊢
        simpa [addSectorCrash, hps, recover, appendTxn, hq, rollbackTxn] using hc
      · simp [addSectorCrash, hps]
    | virtProcess =>
      right
      refine ⟨s0, ?_, ?_, ?_⟩
      · simp [addSectorCrash, hps, recover, appendTxn, hq, rollbackTxn]
      · have hc := hprev s0 hps
        simp only [slotContentAt] at hc ⊢
        simpa [addSectorCrash, hps, recover, appendTxn, hq, rollbackTxn] using hc
      · simp [addSectorCrash, hps]
    | physPrepare =>
      right
      refine ⟨⟨s0.index, s0.storageFolder, s0.count + 1⟩, ?_, ?_, ?_⟩
      · simp [addSectorCrash, hps, recover, releaseLastTxn, applyVirtAdd,
          commitLastTxn, appendTxn, hq, hps]
      · have hc := hprev s0 hps
        simp only [slotContentAt] at hc ⊢
        simpa [addSectorCrash, hps, recover, releaseLastTxn, applyVirtAdd,
          commitLastTxn, appendTxn, hq] using hc
      · simp [addSectorCrash, hps]
    | physProcess =>
      right
      refine ⟨⟨s0.index, s0.storageFolder, s0.count + 1⟩, ?_, ?_, ?_⟩
      · simp [addSectorCrash, hps, recover, releaseLastTxn, applyVirtAdd,
          commitLastTxn, appendTxn, hq, hps]
      · have hc := hprev s0 hps
        simp only [slotContentAt] at hc ⊢
        simpa [addSectorCrash, hps, recover, releaseLastTxn, applyVirtAdd,
          commitLastTxn, appendTxn, hq] using hc
      · simp [addSectorCrash, hps]

/-- Witness for C1: a stop at the physical process boundary on a fresh
one-folder store, with junk bytes left in the chosen slot, recovers to the
sector-absent state. -/
theorem addSector_crash_atomicity_witness :
    ((recover (addSectorCrash 0 wP0 0 [5] faultPoint.physProcess [9]).1).sectors
        (calculateSectorID 0 0) = none ∧
      usedSlotsP (recover (addSectorCrash 0 wP0 0 [5] faultPoint.physProcess [9]).1) =
        usedSlotsP wP0 ∧
      ∀ fid, (fid, calculateSectorID 0 0) ∉
        (recover (addSectorCrash 0 wP0 0 [5] faultPoint.physProcess [9]).1).folderSectors) ∨
    (∃ s, (recover (addSectorCrash 0 wP0 0 [5] faultPoint.physProcess [9]).1).sectors
        (calculateSectorID 0 0) = some s ∧
      slotContentAt (recover (addSectorCrash 0 wP0 0 [5] faultPoint.physProcess [9]).1) s =
        some [5] ∧
      s.count = (match wP0.sectors (calculateSectorID 0 0) with
                 | some s0 => s0.count
                 | none => 0) +
        (if (addSectorCrash 0 wP0 0 [5] faultPoint.physProcess [9]).2 then 1 else 0)) :=
  addSector_crash_atomicity 0 wP0 0 [5] [9] faultPoint.physProcess rfl
    (fun _s hs => nomatch hs) (fun _ _fid hmem => List.not_mem_nil _ hmem)

/-- Every clean operation appends, commits, applies and releases its WAL
transaction, so it leaves the set of unreleased transactions unchanged. -/
theorem walTxns_applyCleanOp (salt : Nat) (p : persistState) (o : SMOpP) :
    (applyCleanOp salt p o).walTxns = p.walTxns := by
  cases o with
  | addFolder c =>
    simp [applyCleanOp, cleanAddFolder, releaseLastTxn, applyAddFolder,
      commitLastTxn, appendTxn]
  | addSector root data =>
    simp only [applyCleanOp, cleanAddSector]
    rcases p.sectors (calculateSectorID salt root) with _ | s
    · rcases hsel : selectFolderP p.folders with _ | ⟨fid, slot⟩ <;>
        simp [releaseLastTxn, applyPhysAdd, commitLastTxn, appendTxn, hsel]
    · simp [releaseLastTxn, applyVirtAdd, commitLastTxn, appendTxn]

/-- Claim C7: after any sequence of clean operations from a fresh store
followed by a clean Close, reopening the WAL reports zero incomplete
transactions. -/
theorem wal_drains_to_zero (salt : Nat) (ops : List SMOpP) :
    reopenWalTxnNum (closePersist (runCleanOps salt ops initPersist)) = 0 := by
  have hrun : ∀ (l : List SMOpP) (p : persistState),
      (runCleanOps salt l p).walTxns = p.walTxns := by
    intro l
    induction l with
    | nil => intro p; rfl
    | cons o rest ih =>
      intro p
      show (runCleanOps salt rest (applyCleanOp salt p o)).walTxns = p.walTxns
      rw [ih, walTxns_applyCleanOp]
  simp [reopenWalTxnNum, closePersist, hrun, initPersist]

/-- A successful list lookup index is within bounds. -/
theorem getq_lt {α : Type} : ∀ (l : List α) (i : Nat) (a : α),
    l.get? i = some a → i < l.length
  | [], _, _, h => nomatch h
  | _ :: _, 0, _, _ => Nat.succ_pos _
  | _ :: xs, i + 1, a, h => Nat.succ_lt_succ (getq_lt xs i a h)

/-- Reading back an in-bounds list update gives the written value. -/
theorem getq_set_eq {α : Type} : ∀ (l : List α) (i : Nat) (a : α),
    i < l.length → (l.set i a).get? i = some a
  | [], i, _, h => absurd h (Nat.not_lt_zero i)
  | _ :: _, 0, _, _ => rfl
  | _ :: xs, i + 1, a, h => getq_set_eq xs i a (Nat.lt_of_succ_lt_succ h)

/-- A list update leaves every other position unchanged. -/
theorem getq_set_ne {α : Type} : ∀ (l : List α) (i j : Nat) (a : α),
    i ≠ j → (l.set i a).get? j = l.get? j
  | [], _, _, _, _ => rfl
  | _ :: _, 0, 0, _, h => absurd rfl h
  | _ :: _, 0, _ + 1, _, _ => rfl
  | _ :: _, _ + 1, 0, _, _ => rfl
  | _ :: xs, i + 1, j + 1, a, h => getq_set_ne xs i j a (fun e => h (congrArg Nat.succ e))

/-- A program inside a critical section ends with the release of its id. -/
theorem inCrit_last {p : List lockAction} {id : Nat} (h : inCrit p id) :
    p.getLast? = some (lockAction.release id) := by
  rcases h with h | h | h <;> subst h <;> rfl

/-- A program is inside the critical section of at most one id. -/
theorem inCrit_inj {p : List lockAction} {id id' : Nat}
    (h : inCrit p id) (h' : inCrit p id') : id = id' := by
  have h2 := Option.some.inj ((inCrit_last h).symm.trans (inCrit_last h'))
  simpa using h2

/-- After an acquire, the remaining steps are the critical section. -/
theorem progOK_head_acquire {id : Nat} {rest : List lockAction}
    (h : progOK (lockAction.acquire id :: rest)) :
    rest = [lockAction.indexAccess id, lockAction.bodyStep, lockAction.release id] := by
  obtain ⟨id₀, h | h | h⟩ := h
  · simp only [sectorOpProgram, List.cons.injEq, lockAction.acquire.injEq] at h
    obtain ⟨rfl, rfl⟩ := h
    rfl
  · rcases h with h | h | h <;> simp at h
  · simp at h

/-- A program whose next step consults the index is inside its critical
section, between the acquire and the release. -/
theorem progOK_head_indexAccess {id : Nat} {rest : List lockAction}
    (h : progOK (lockAction.indexAccess id :: rest)) :
    inCrit (lockAction.indexAccess id :: rest) id ∧
      rest = [lockAction.bodyStep, lockAction.release id] := by
  obtain ⟨id₀, h | h | h⟩ := h
  · simp [sectorOpProgram] at h
  · rcases h with h | h | h
    · simp only [List.cons.injEq, lockAction.indexAccess.injEq] at h
      obtain ⟨rfl, rfl⟩ := h
      exact ⟨Or.inl rfl, rfl⟩
    · simp at h
    · simp at h
  · simp at h

/-- A program whose next step is the operation body is inside its critical
section and releases next. -/
theorem progOK_head_bodyStep {rest : List lockAction}
    (h : progOK (lockAction.bodyStep :: rest)) :
    ∃ id, rest = [lockAction.release id] ∧
      inCrit (lockAction.bodyStep :: rest) id := by
  obtain ⟨id₀, h | h | h⟩ := h
  · simp [sectorOpProgram] at h
  · rcases h with h | h | h
    · simp at h
    · simp only [List.cons.injEq] at h
      obtain ⟨-, rfl⟩ := h
      exact ⟨id₀, rfl, Or.inr (Or.inl rfl)⟩
    · simp at h
  · simp at h

/-- After a release nothing of the operation remains. -/
theorem progOK_head_release {id : Nat} {rest : List lockAction}
    (h : progOK (lockAction.release id :: rest)) : rest = [] := by
  obtain ⟨id₀, h | h | h⟩ := h
  · simp [sectorOpProgram] at h
  · rcases h with h | h | h
    · simp at h
    · simp at h
    · simp only [List.cons.injEq] at h
      exact h.2
  · simp at h

/-- The lock-system invariant holds at every initial state. -/
theorem sysInv_init (sids : List Nat) : sysInv (sysInit sids) := by
  refine ⟨?_, ?_, ?_⟩
  · intro t p hp
    simp only [sysInit] at hp
    rw [List.get?_map] at hp
    rcases hsid : sids.get? t with _ | id <;> rw [hsid] at hp
    · cases hp
    · obtain rfl := Option.some.inj hp
      exact ⟨id, Or.inl rfl⟩
  · intro t p id hp hcrit
    simp only [sysInit] at hp
    rw [List.get?_map] at hp
    rcases hsid : sids.get? t with _ | id₀ <;> rw [hsid] at hp
    · cases hp
    · obtain rfl := Option.some.inj hp
      rcases hcrit with h | h | h <;> simp [sectorOpProgram] at h
  · intro id t hheld
    simp [sysInit] at hheld

/-- The lock-system invariant is preserved by every interleaving step. -/
theorem sysInv_step {s s' : lockSys} (hInv : sysInv s) (hs : lockStep s s') :
    sysInv s' := by
  obtain ⟨inv1, inv2, inv3⟩ := hInv
  cases hs with
  | acquire t id rest hth hfree =>
    have hlen : t < s.threads.length := getq_lt _ _ _ hth
    have hrest := progOK_head_acquire (inv1 t _ hth)
    subst hrest
    refine ⟨?_, ?_, ?_⟩
    · intro t' p' hp'
      by_cases ht : t' = t
      · subst ht
        rw [getq_set_eq _ _ _ hlen] at hp'
        obtain rfl := Option.some.inj hp'
        exact ⟨id, Or.inr (Or.inl (Or.inl rfl))⟩
      · rw [getq_set_ne _ _ _ _ (fun e => ht e.symm)] at hp'
        exact inv1 t' p' hp'
    · intro t' p' id' hp' hcrit
      show (if id' = id then some t else s.held id') = some t'
      by_cases ht : t' = t
      · subst ht
        rw [getq_set_eq _ _ _ hlen] at hp'
        obtain rfl := Option.some.inj hp'
        have hid : id' = id := (inCrit_inj (Or.inl rfl) hcrit).symm
        simp [hid]
      · rw [getq_set_ne _ _ _ _ (fun e => ht e.symm)] at hp'
        have hold := inv2 t' p' id' hp' hcrit
        by_cases hid : id' = id
        · subst hid
          rw [hfree] at hold
          cases hold
        · simp [hid, hold]
    · intro id' t' hheld
      simp only at hheld
      by_cases hid : id' = id
      · subst hid
        rw [if_pos rfl] at hheld
        obtain rfl := Option.some.inj hheld
        exact ⟨_, getq_set_eq _ _ _ hlen, Or.inl rfl⟩
      · rw [if_neg hid] at hheld
        obtain ⟨p, hp, hc⟩ := inv3 id' t' hheld
        by_cases ht : t' = t
        · subst ht
          rw [hth] at hp
          obtain rfl := Option.some.inj hp
          rcases hc with h | h | h <;> simp at h
        · exact ⟨p, by rw [getq_set_ne _ _ _ _ (fun e => ht e.symm)]; exact hp, hc⟩
  | indexAccess t id rest hth =>
    have hlen : t < s.threads.length := getq_lt _ _ _ hth
    obtain ⟨hcritOld, hrest⟩ := progOK_head_indexAccess (inv1 t _ hth)
    subst hrest
    have hheldt : s.held id = some t := inv2 t _ id hth hcritOld
    refine ⟨?_, ?_, ?_⟩
    · intro t' p' hp'
      by_cases ht : t' = t
      · subst ht
        rw [getq_set_eq _ _ _ hlen] at hp'
        obtain rfl := Option.some.inj hp'
        exact ⟨id, Or.inr (Or.inl (Or.inr (Or.inl rfl)))⟩
      · rw [getq_set_ne _ _ _ _ (fun e => ht e.symm)] at hp'
        exact inv1 t' p' hp'
    · intro t' p' id' hp' hcrit
      show s.held id' = some t'
      by_cases ht : t' = t
      · subst ht
        rw [getq_set_eq _ _ _ hlen] at hp'
        obtain rfl := Option.some.inj hp'
        have hid : id' = id := (inCrit_inj (Or.inr (Or.inl rfl)) hcrit).symm
        rw [hid]
        exact hheldt
      · rw [getq_set_ne _ _ _ _ (fun e => ht e.symm)] at hp'
        exact inv2 t' p' id' hp' hcrit
    · intro id' t' hheld
      obtain ⟨p, hp, hc⟩ := inv3 id' t' hheld
      by_cases ht : t' = t
      · subst ht
        rw [hth] at hp
        obtain rfl := Option.some.inj hp
        have hid : id' = id := inCrit_inj hc hcritOld
        subst hid
        exact ⟨_, getq_set_eq _ _ _ hlen, Or.inr (Or.inl rfl)⟩
      · exact ⟨p, by rw [getq_set_ne _ _ _ _ (fun e => ht e.symm)]; exact hp, hc⟩
  | bodyStep t rest hth =>
    have hlen : t < s.threads.length := getq_lt _ _ _ hth
    obtain ⟨id, hrest, hcritOld⟩ := progOK_head_bodyStep (inv1 t _ hth)
    subst hrest
    have hheldt : s.held id = some t := inv2 t _ id hth hcritOld
    refine ⟨?_, ?_, ?_⟩
    · intro t' p' hp'
      by_cases ht : t' = t
      · subst ht
        rw [getq_set_eq _ _ _ hlen] at hp'
        obtain rfl := Option.some.inj hp'
        exact ⟨id, Or.inr (Or.inl (Or.inr (Or.inr rfl)))⟩
      · rw [getq_set_ne _ _ _ _ (fun e => ht e.symm)] at hp'
        exact inv1 t' p' hp'
    · intro t' p' id' hp' hcrit
      show s.held id' = some t'
      by_cases ht : t' = t
      · subst ht
        rw [getq_set_eq _ _ _ hlen] at hp'
        obtain rfl := Option.some.inj hp'
        have hid : id' = id := (inCrit_inj (Or.inr (Or.inr rfl)) hcrit).symm
        rw [hid]
        exact hheldt
      · rw [getq_set_ne _ _ _ _ (fun e => ht e.symm)] at hp'
        exact inv2 t' p' id' hp' hcrit
    · intro id' t' hheld
      obtain ⟨p, hp, hc⟩ := inv3 id' t' hheld
      by_cases ht : t' = t
      · subst ht
        rw [hth] at hp
        obtain rfl := Option.some.inj hp
        have hid : id' = id := inCrit_inj hc hcritOld
        subst hid
        exact ⟨_, getq_set_eq _ _ _ hlen, Or.inr (Or.inr rfl)⟩
      · exact ⟨p, by rw [getq_set_ne _ _ _ _ (fun e => ht e.symm)]; exact hp, hc⟩
  | release t id rest hth =>
    have hlen : t < s.threads.length := getq_lt _ _ _ hth
    have hrest := progOK_head_release (inv1 t _ hth)
    subst hrest
    have hcritOld : inCrit [lockAction.release id] id := Or.inr (Or.inr rfl)
    have hheldt : s.held id = some t := inv2 t _ id hth hcritOld
    refine ⟨?_, ?_, ?_⟩
    · intro t' p' hp'
      by_cases ht : t' = t
      · subst ht
        rw [getq_set_eq _ _ _ hlen] at hp'
        obtain rfl := Option.some.inj hp'
        exact ⟨0, Or.inr (Or.inr rfl)⟩
      · rw [getq_set_ne _ _ _ _ (fun e => ht e.symm)] at hp'
        exact inv1 t' p' hp'
    · intro t' p' id' hp' hcrit
      show (if id' = id then none else s.held id') = some t'
      by_cases ht : t' = t
      · subst ht
        rw [getq_set_eq _ _ _ hlen] at hp'
        obtain rfl := Option.some.inj hp'
        rcases hcrit with h | h | h <;> cases h
      · rw [getq_set_ne _ _ _ _ (fun e => ht e.symm)] at hp'
        have hold := inv2 t' p' id' hp' hcrit
        by_cases hid : id' = id
        · subst hid
          rw [hheldt] at hold
          obtain rfl := Option.some.inj hold
          exact absurd rfl ht
        · simp [hid, hold]
    · intro id' t' hheld
      simp only at hheld
      by_cases hid : id' = id
      · subst hid
        rw [if_pos rfl] at hheld
        cases hheld
      · rw [if_neg hid] at hheld
        obtain ⟨p, hp, hc⟩ := inv3 id' t' hheld
        by_cases ht : t' = t
        · subst ht
          rw [hth] at hp
          obtain rfl := Option.some.inj hp
          exact absurd (inCrit_inj hc hcritOld) hid
        · exact ⟨p, by rw [getq_set_ne _ _ _ _ (fun e => ht e.symm)]; exact hp, hc⟩

/-- The lock-system invariant holds at every reachable state. -/
theorem sysInv_reach {sids : List Nat} {s : lockSys}
    (h : reach (sysInit sids) s) : sysInv s := by
  induction h with
  | refl => exact sysInv_init sids
  | tail _ hs ih => exact sysInv_step ih hs

/-- Claim C8: in every reachable state of concurrent sector operations, at
most one operation is inside the critical section on any sector identifier,
no operation holds more than one sector lock, every operation inside a
critical section acquired the lock for it, and an acquire of a free
identifier is always enabled, so operations on distinct identifiers proceed
concurrently. -/
theorem sector_lock_exclusion (sids : List Nat) (s : lockSys)
    (h : reach (sysInit sids) s) :
    (∀ t1 t2 p1 p2 id, s.threads.get? t1 = some p1 → s.threads.get? t2 = some p2 →
      inCrit p1 id → inCrit p2 id → t1 = t2) ∧
    (∀ t id id', s.held id = some t → s.held id' = some t → id = id') ∧
    (∀ t p id, s.threads.get? t = some p → inCrit p id → s.held id = some t) ∧
    (∀ t id rest, s.threads.get? t = some (lockAction.acquire id :: rest) →
      s.held id = none →
      lockStep s ⟨s.threads.set t rest, fun i => if i = id then some t else s.held i⟩) := by
  obtain ⟨inv1, inv2, inv3⟩ := sysInv_reach h
  refine ⟨?_, ?_, inv2, ?_⟩
  · intro t1 t2 p1 p2 id hp1 hp2 hc1 hc2
    have h1 := inv2 t1 p1 id hp1 hc1
    have h2 := inv2 t2 p2 id hp2 hc2
    exact Option.some.inj (h1.symm.trans h2)
  · intro t id id' hh hh'
    obtain ⟨p, hp, hc⟩ := inv3 id t hh
    obtain ⟨p', hp', hc'⟩ := inv3 id' t hh'
    rw [hp] at hp'
    obtain rfl := Option.some.inj hp'
    exact inCrit_inj hc hc'
  · intro t id rest hth hfree
    exact lockStep.acquire s t id rest hth hfree

/-- Witness for C8 at the initial state of two threads on distinct sector
identifiers. -/
theorem sector_lock_exclusion_witness :
    (∀ t1 t2 p1 p2 id,
      (sysInit [3, 4]).threads.get? t1 = some p1 →
      (sysInit [3, 4]).threads.get? t2 = some p2 →
      inCrit p1 id → inCrit p2 id → t1 = t2) ∧
    (∀ t id id', (sysInit [3, 4]).held id = some t →
      (sysInit [3, 4]).held id' = some t → id = id') ∧
    (∀ t p id, (sysInit [3, 4]).threads.get? t = some p → inCrit p id →
      (sysInit [3, 4]).held id = some t) ∧
    (∀ t id rest,
      (sysInit [3, 4]).threads.get? t = some (lockAction.acquire id :: rest) →
      (sysInit [3, 4]).held id = none →
      lockStep (sysInit [3, 4])
        ⟨(sysInit [3, 4]).threads.set t rest, fun i => if i = id then some t else (sysInit [3, 4]).held i⟩) :=
  sector_lock_exclusion [3, 4] (sysInit [3, 4]) reach.refl

/-- Witness for C4 at a concrete manager holding one stored sector. -/
theorem readSector_behaviour_witness :
    (wSM1.sectors (wSM1.getSectorID 0) = none →
      (ReadSector wSM1 0).res = .error "Unable to find sector meta") ∧
    (∀ ss, wSM1.sectors (wSM1.getSectorID 0) = some ss →
      (lookupF wSM1.folders ss.storageFolder = none →
        (ReadSector wSM1 0).res = .error "Unable to load storage folder") ∧
      (∀ sf, lookupF wSM1.folders ss.storageFolder = some sf →
        (sf.atomicUnavailable = true →
          (ReadSector wSM1 0).res = .error "Unable to open the folder") ∧
        (sf.atomicUnavailable = false →
          (ss.index * SectorSize + SectorSize ≤ sf.sectorData.size →
            (ReadSector wSM1 0).res =
              .ok ((List.range SectorSize).map fun i =>
                sf.sectorData.byteAt (ss.index * SectorSize + i))) ∧
          (¬ ss.index * SectorSize + SectorSize ≤ sf.sectorData.size →
            (ReadSector wSM1 0).res = .error "fail to read sector")))) :=
  readSector_behaviour wSM1 0 rfl

end Godx
